import Mathlib

/-!
Verification of the Schedule Aggregation & Publication Engine
(`src/features/sell-schedule.ts` and its helpers) against its
natural-language specification.

The TypeScript code is shallowly embedded: the in-memory `schedule` array
becomes a `List ScheduleMessage`, the event handlers become pure functions
from store state to store state, and the publish cycle (`createMessages`'
queued `queueFunction`) becomes a pure function that returns the list of
destination writes it would issue together with its updated
`writtenSchedule` fingerprint.  JavaScript numbers that only ever hold
non-negative integers (epoch-second timestamps, lengths, indices) are
embedded as `Nat`, except where JavaScript's `-1` behaviour matters, where
`Int` is used explicitly.
-/

set_option maxRecDepth 100000

namespace SellSchedule

/-- One parsed "offer" post, mirroring the `ScheduleMessage` type of
`src/features/sell-schedule.ts` (lines 450-460).  The external
`calendar-link` payload (`calendarEvent`) is represented by the one datum
the embedded code consumes from it: the `google(...)` deep-link string
rendered into a schedule line when `includeCalendarLink` is set. -/
structure ScheduleMessage where
  id : String
  channelId : String
  reactorIds : List String
  reactorNames : List String
  region : String
  date : Nat
  text : String
  url : String
  calendarEvent : Option String
deriving Repr, DecidableEq

/-- Modelled from the spec: the designated sign-up reaction emoji id
(`MCMysticCoinEmoji` imported from `constants/emojis.ts`, a file that is
not under `src/`).  The handlers only compare reaction emoji ids against
this constant, so its concrete value is irrelevant. -/
def MCMysticCoinEmoji : String := "MCMysticCoin"

/-- Modelled from the spec: the calendar emoji id (`GCalEmoji` from
`constants/emojis.ts`, not under `src/`); only interpolated into the
optional calendar-link suffix of a formatted line. -/
def GCalEmoji : String := "GCalEmoji"

/-- The divider line pushed before the first entry of every page after the
first (`sell-schedule.ts` line 412). -/
def scheduleSplit : String := "-------------------------"

/-- The formatted line `newText` built for one entry
(`sell-schedule.ts` line 402):
`<t:${date}:F> ${text} ${url} ${includeCalendarLink && calendarEvent ? link : ''}`. -/
def formatLine (includeCalendarLink : Bool) (message : ScheduleMessage) : String :=
  "<t:" ++ toString message.date ++ ":F> " ++ message.text ++ " " ++ message.url ++ " " ++
    (match includeCalendarLink, message.calendarEvent with
      | true, some link => "[<:google_calendar:" ++ GCalEmoji ++ ">](<" ++ link ++ ">)"
      | _, _ => "")

/-- The accumulator of the `reduce` in `getPrunedOutput`
(`sell-schedule.ts` lines 400-445): `{ length, position, output }`, plus
the closure variable `hasAddedSubText` that the reduce body mutates. -/
structure PruneState where
  length : Nat
  position : Nat
  output : List (List String)
  hasAddedSubText : Bool
deriving Repr, DecidableEq

/-- JavaScript `cum.output[cum.position].push(line)`. -/
def pushAt (pages : List (List String)) (i : Nat) (line : String) :
    List (List String) :=
  pages.modify (fun page => page ++ [line]) i

/-- One step of the `reduce` body of `getPrunedOutput`
(`sell-schedule.ts` lines 401-439), for the entry at position
`entry.1` (= `index`) of the sorted history of length `total`.
`cum.output.length - 1 < cum.position` is evaluated over `Int`, as in
JavaScript, since `output` starts empty. -/
def pruneStep (addSubtext includeCalendarLink : Bool) (total : Nat)
    (cum : PruneState) (entry : Nat × ScheduleMessage) : PruneState :=
  let index := entry.1
  let message := entry.2
  let newText := formatLine includeCalendarLink message
  if cum.hasAddedSubText then cum
  else
    let cum :=
      if (cum.output.length : Int) - 1 < (cum.position : Int) then
        let st : PruneState := { cum with output := cum.output ++ [[]] }
        if index ≠ 0 then
          { st with
              output := pushAt st.output st.position scheduleSplit,
              length := st.length + scheduleSplit.length }
        else st
      else cum
    if cum.length + newText.length ≥ 1900 then
      let st : PruneState :=
        if addSubtext then
          { cum with
              hasAddedSubText := true,
              output := pushAt cum.output cum.position
                ("⚠️ " ++ toString (total - index) ++ " items not displayed ⚠️") }
        else cum
      { st with position := st.position + 1, length := 0 }
    else
      { cum with
          output := pushAt cum.output cum.position newText,
          length := cum.length + newText.length }

/-- Insert a message into an already date-sorted list, after every message
of smaller or equal date (so relative order of equal dates is kept). -/
def insertByDate (m : ScheduleMessage) : List ScheduleMessage → List ScheduleMessage
  | [] => [m]
  | e :: rest => if e.date ≤ m.date then e :: insertByDate m rest else m :: e :: rest

/-- The in-place `history.sort((a, b) => a.date - b.date)` of
`sell-schedule.ts` line 396: a stable ascending sort by `date`
(ECMAScript `Array.prototype.sort` is stable), implemented as a stable
insertion sort so that it reduces in the kernel. -/
def sortByDate (history : List ScheduleMessage) : List ScheduleMessage :=
  history.foldr insertByDate []

/-- The paginator `getPrunedOutput` (`sell-schedule.ts` lines 395-448):
sort ascending by date, then fold the `reduce` body over the entries with
their indices, starting from `{ length: 0, position: 0, output: [] }`. -/
def getPrunedOutput (history : List ScheduleMessage)
    (addSubtext includeCalendarLink : Bool) : List (List String) :=
  let sorted := sortByDate history
  (sorted.enum.foldl (pruneStep addSubtext includeCalendarLink sorted.length)
      { length := 0, position := 0, output := [], hasAddedSubText := false }).output

/-- A page's content as sent: its lines joined with `'\r\n\r\n'`
(`sell-schedule.ts` lines 209 and 369). -/
def pageContent (page : List String) : String :=
  String.intercalate "\r\n\r\n" page

/-- The store mutation of `updateSchedule` (`sell-schedule.ts` lines
264-306), applied to the parsed current message content: `findIndex` by id
(line 269); when tracked, overwrite only `date` and `text` of the first
match (lines 272-274) and return; otherwise `push` the parsed entry
(line 293).  The calendar-mirror calls on both branches are best-effort
external side effects with no store state. -/
def updateSchedule : List ScheduleMessage → ScheduleMessage → List ScheduleMessage
  | [], parsed => [parsed]
  | e :: rest, parsed =>
    if e.id = parsed.id then { e with date := parsed.date, text := parsed.text } :: rest
    else e :: updateSchedule rest parsed

/-- The `messageReactionAdd` mutation of the first tracked entry with the
reacted message's id (`sell-schedule.ts` line 241):
`matchingHistoryItem.reactorIds.push(user.id)`.  `reactorNames` is not
touched by this handler. -/
def addReactorToFirst (messageId userId : String) :
    List ScheduleMessage → List ScheduleMessage
  | [] => []
  | e :: rest =>
    if e.id = messageId then { e with reactorIds := e.reactorIds ++ [userId] } :: rest
    else e :: addReactorToFirst messageId userId rest

/-- The `messageReactionRemove` mutation of the first tracked entry with
the reacted message's id (`sell-schedule.ts` lines 256-259): `indexOf` the
user id and `splice` one element, i.e. erase the first occurrence.
`reactorNames` is not touched by this handler. -/
def removeReactorFromFirst (messageId userId : String) :
    List ScheduleMessage → List ScheduleMessage
  | [] => []
  | e :: rest =>
    if e.id = messageId then { e with reactorIds := e.reactorIds.erase userId } :: rest
    else e :: removeReactorFromFirst messageId userId rest

/-- The `messageReactionAdd` handler (`sell-schedule.ts` lines 231-243):
return unchanged unless some tracked entry has the message's id and the
emoji is the sign-up emoji; otherwise push the user id onto the first
matching entry's `reactorIds` and then run `updateSchedule` on the
re-fetched message (`refetched` is its parse). -/
def reactionAdd (schedule : List ScheduleMessage)
    (messageId emojiId userId : String) (refetched : ScheduleMessage) :
    List ScheduleMessage :=
  if (schedule.find? (fun e => e.id == messageId)).isSome ∧ emojiId = MCMysticCoinEmoji then
    updateSchedule (addReactorToFirst messageId userId schedule) refetched
  else schedule

/-- The `messageReactionRemove` handler (`sell-schedule.ts` lines
245-262): return unchanged unless a tracked entry matches and the emoji is
the sign-up emoji; then, only when the user id occurs in that entry's
`reactorIds` (`index > -1`), splice it out and run `updateSchedule` on the
re-fetched message. -/
def reactionRemove (schedule : List ScheduleMessage)
    (messageId emojiId userId : String) (refetched : ScheduleMessage) :
    List ScheduleMessage :=
  (schedule.find? (fun e => e.id == messageId)).elim schedule (fun item =>
    if emojiId = MCMysticCoinEmoji then
      if userId ∈ item.reactorIds then
        updateSchedule (removeReactorFromFirst messageId userId schedule) refetched
      else schedule
    else schedule)

/-- The `messageDelete` handler's store mutation (`sell-schedule.ts` lines
129-141): `findIndex` by id, return unchanged when absent (`index < 0`),
otherwise `splice` out that one entry (the first match). -/
def deleteMessage : List ScheduleMessage → String → List ScheduleMessage
  | [], _ => []
  | e :: rest, messageId =>
    if e.id = messageId then rest else e :: deleteMessage rest messageId

/-- The `messageDeleteBulk` handler's store mutation (`sell-schedule.ts`
lines 143-157): the single-delete mutation applied per deleted message, in
collection order. -/
def deleteMessagesBulk (schedule : List ScheduleMessage)
    (messageIds : List String) : List ScheduleMessage :=
  messageIds.foldl deleteMessage schedule

/-- One destination channel's static configuration: an element of the
`scheduleChannelIds` argument (`sell-schedule.ts` line 25). -/
structure ChannelInfo where
  id : String
  regions : List String
deriving Repr, DecidableEq

/-- What a publish cycle reads from a destination channel: the ids of the
bot-authored messages it would fetch and delete (`sell-schedule.ts` lines
341-347). -/
structure ChannelState where
  botMessageIds : List String
deriving Repr, DecidableEq

/-- One outbound destination operation issued by a publish cycle: a
message deletion (line 346) or a send (lines 352 and 368-371).  A send's
content is `Option String` because indexing `NO_SELLS_COMMENTS` out of
bounds sends JavaScript `undefined` (`none` here); `hasButton` records
whether the `components` row was attached. -/
inductive DestinationWrite where
  | deleteMsg (channelId messageId : String)
  | send (channelId : String) (content : Option String) (hasButton : Bool)
deriving Repr, DecidableEq

/-- The outcome of one run of the queued `queueFunction`
(`sell-schedule.ts` lines 309-378): the destination writes it issued in
order, the `writtenSchedule` fingerprint after the run, and whether the
run completed (`false` exactly when it took the early
`return channel.send(...)` of the empty-region branch, lines 351-353). -/
structure CycleResult where
  writes : List DestinationWrite
  writtenSchedule : List String
  completed : Bool
deriving Repr, DecidableEq

/-- The content fingerprint `item.id + item.date + item.text` taken per
entry (`sell-schedule.ts` lines 311-313 and 375-377). -/
def fingerprintOf (schedule : List ScheduleMessage) : List String :=
  schedule.map (fun item => item.id ++ toString item.date ++ item.text)

/-- The skip check at the top of `queueFunction` (`sell-schedule.ts` lines
310-329): when `writtenSchedule` has the schedule's length and no indexed
item of the current fingerprint differs from it, the cycle is a no-op. -/
def scheduleUnchanged (schedule : List ScheduleMessage)
    (writtenSchedule : List String) : Bool :=
  writtenSchedule.length == schedule.length &&
    !((fingerprintOf schedule).zip writtenSchedule).any (fun p => p.1 != p.2)

/-- The `NO_SELLS_COMMENTS` array (`sell-schedule.ts` lines 462-486), 23
entries. -/
def NO_SELLS_COMMENTS : List String := [
  "Loading History...",
  "No sells going, time to sign up as a hustler by PM-ing Dubious Detective!",
  "Nothing to see here, move along.",
  "Khajit has no wares because buyers have no coin.",
  "One small step for man, one empty sell list for mankind.",
  "The sell list is as empty as a goblin's heart.",
  "Silence in the marketplace... eerie, isn't it?",
  "No transactions today. The vault sleeps.",
  "All quiet on the selling front.",
  "Not a single sell in sight. Must be a holiday.",
  "No sells today, just tumbleweeds.",
  "The sell list is on vacation. Please check back later.",
  "Even the buyer took the day off.",
  "The market is as still as a dragon's lair.",
  "Zero sells. Time to sharpen your blades instead.",
  "The sell list is a blank canvas today.",
  "Nothing here. Did we miss a memo?",
  "No sells yet. Maybe you can change that?",
  "sup, i really liked the sells i joined with you, but you guys are just memeing too much in discord chats for my taste.\nsince i can't make the whole guild only use meme channel for memes you can kick me as im not fitting in\nfarewell whoever didnt meme and fuck you memers  -sh/severin/SeVeRiNhD.7195",
  "Team sorry for my past unreliable behaviour, I can see how I have triggered people with it and I can understand it, forgetting about a sell is tbh unacceptable (or just coming late and potentially causing us to lose buyers).\nFor what it's worth I've had quite a bit of irl stress but as an adult I should be capable of handling it and its not an excuse, just to explain.\nI've dealt with everything and I'm happy to show you the respect u deserve\n& I'm thankful that I still have the opportunity to raid here ❤️ best sell guild eu no cap\nsry for ping :monkapls:",
  "@ everyone (didn't wanna ping and annoy ppl) \nI was made aware, that i lacked performance during sells by not being correctly geared. Breaking rule 8a).\nI got a corresponding penalty.\nThis message is mostly to apologize to everyone for therefore griefing sells, it did not happen with malicious intend, but it happend. \nTherefor my sincere apology to everyone 🙇",
  "OwO Good luck on your exam!  You're gonna ace it!  I believe in you!  💖✨ \n\nRemember to stay calm and focused, and you'll do amazing!  Fighting!  💪💖",
  "You know what, Chase Chonker, I think it's time for a break from this.  I'm going to mute you.  I need to take a break from this.  I'm going to mute you.  I need to take a break from this.  You know what, Chase Chonker, I think it's time for a break from this.  I'm going to mute you.  I need to take a break from this.  I'm going to mute you.  I need to take a break from this. You know what, Chase Chonker,"]

/-- The placeholder index `Math.round(Math.random() * NO_SELLS_COMMENTS.length)`
(`sell-schedule.ts` line 352), idealised over the rationals: `Math.random()`
returns some `r` with `0 ≤ r < 1`, and for non-negative arguments JavaScript
`Math.round x = ⌊x + 0.5⌋`. -/
def noSellsIndex (r : ℚ) : ℤ :=
  ⌊r * (NO_SELLS_COMMENTS.length : ℚ) + 1 / 2⌋

/-- The writes one destination receives in one publish cycle
(`sell-schedule.ts` lines 341-372): delete every bot-authored message,
then either send one placeholder comment and abort the whole cycle (the
empty-region branch, lines 349-353; the `Bool` is `true` for this abort)
or send every page of `getPrunedOutput` over the region-filtered schedule,
the last page carrying the button row. -/
def channelWrites (schedule : List ScheduleMessage) (randIndex : Nat)
    (info : ChannelInfo) (ch : ChannelState) : List DestinationWrite × Bool :=
  let deletes := ch.botMessageIds.map (DestinationWrite.deleteMsg info.id)
  let regionSchedule := schedule.filter (fun m => info.regions.contains m.region)
  if regionSchedule.length = 0 then
    (deletes ++ [DestinationWrite.send info.id (NO_SELLS_COMMENTS.get? randIndex) false],
      true)
  else
    let result := getPrunedOutput regionSchedule false false
    (deletes ++ result.enum.map (fun p =>
        DestinationWrite.send info.id (some (pageContent p.2))
          (p.1 == result.length - 1)),
      false)

/-- The destination loop of `queueFunction` (`sell-schedule.ts` lines
331-373): a missing channel is skipped with `continue` (lines 336-339), an
empty-region destination aborts the loop after its placeholder send, and
every other destination contributes its writes in list order.  Returns the
accumulated writes and whether the loop aborted. -/
def runChannels (channels : String → Option ChannelState)
    (schedule : List ScheduleMessage) (randIndex : Nat) :
    List ChannelInfo → List DestinationWrite → List DestinationWrite × Bool
  | [], acc => (acc, false)
  | info :: rest, acc =>
    match channels info.id with
    | none => runChannels channels schedule randIndex rest acc
    | some ch =>
      let step := channelWrites schedule randIndex info ch
      if step.2 then (acc ++ step.1, true)
      else runChannels channels schedule randIndex rest (acc ++ step.1)

/-- One run of the queued `queueFunction` (`sell-schedule.ts` lines
309-378): skip as a no-op when the fingerprint is unchanged; otherwise run
the destination loop, and record the new `writtenSchedule` fingerprint
only when the loop was not aborted by the empty-region early return. -/
def runCycle (channelInfos : List ChannelInfo)
    (channels : String → Option ChannelState) (randIndex : Nat)
    (schedule : List ScheduleMessage) (writtenSchedule : List String) :
    CycleResult :=
  if scheduleUnchanged schedule writtenSchedule then
    { writes := [], writtenSchedule := writtenSchedule, completed := true }
  else
    let run := runChannels channels schedule randIndex channelInfos []
    if run.2 then
      { writes := run.1, writtenSchedule := writtenSchedule, completed := false }
    else
      { writes := run.1, writtenSchedule := fingerprintOf schedule, completed := true }

/-- A string of `n` copies of one character, used to build entries whose
formatted line has a prescribed length. -/
def longRun (n : Nat) (c : Char) : String := String.mk (List.replicate n c)

/-- Concrete entry whose formatted line (`formatLine false`) is 949
characters long: `<t:1:F> ` (8) + 938 + `· u ·` (3). -/
def entryA : ScheduleMessage := ⟨"1", "chan", [], [], "EU", 1, longRun 938 'a', "u", none⟩

/-- Second 949-character-line entry, dated after `entryA`. -/
def entryB : ScheduleMessage := ⟨"2", "chan", [], [], "EU", 2, longRun 938 'b', "u", none⟩

/-- Third 949-character-line entry, dated after `entryB`. -/
def entryC : ScheduleMessage := ⟨"3", "chan", [], [], "EU", 3, longRun 938 'c', "u", none⟩

/-- Concrete entry whose formatted line is exactly 1900 characters, the
pagination budget: it alone reaches the limit. -/
def entryOversized : ScheduleMessage := ⟨"4", "chan", [], [], "EU", 4, longRun 1889 'd', "u", none⟩

/-- Concrete entry whose formatted line is 2000 characters. -/
def entryHuge : ScheduleMessage := ⟨"5", "chan", [], [], "EU", 5, longRun 1989 'e', "u", none⟩

/-- The shortest possible entry: its formatted line `<t:0:F>   ` is 10
characters. -/
def tinyEntry : ScheduleMessage := ⟨"t", "chan", [], [], "EU", 0, "", "", none⟩

/-- Concrete EU-region entry for the publish-cycle evaluations. -/
def euEntry : ScheduleMessage := ⟨"e1", "chan", [], [], "EU", 100, "Raid", "url1", none⟩

/-- Tracked entry whose `reactorIds` already holds user `u` followed by
`v`: the input refuting the add-then-remove round trip. -/
def c5entry : ScheduleMessage := ⟨"m1", "chan", ["u", "v"], ["u", "v"], "EU", 10, "T", "url", none⟩

/-- Tracked entry with user `v` (and not `u`) signed up, for the
round-trip witness. -/
def c5entryW : ScheduleMessage := ⟨"m1", "chan", ["v"], ["v"], "EU", 10, "T", "url", none⟩

/-- Tracked entry with no reactors, for the reactor-list sync evaluation. -/
def c6entry : ScheduleMessage := ⟨"m2", "chan", [], [], "EU", 20, "T2", "url2", none⟩

/-- Tracked entry with one reactor, target of the content-update witness. -/
def c7entryA : ScheduleMessage := ⟨"a1", "chan", ["u1"], ["uname"], "EU", 1, "old", "urlA", none⟩

/-- Second tracked entry, untouched by the content-update witness. -/
def c7entryB : ScheduleMessage := ⟨"b1", "chan", [], [], "NA", 2, "B", "urlB", none⟩

/-- Re-parse of `c7entryA`'s message after a content edit: same id, new
date and text (a fresh parse carries empty reactor lists). -/
def c7update : ScheduleMessage := ⟨"a1", "chan", [], [], "EU", 99, "new", "urlA", none⟩

/-- First tracked entry of the bulk-delete witness. -/
def c8entryA : ScheduleMessage := ⟨"d1", "chan", [], [], "EU", 1, "A", "u", none⟩

/-- Second tracked entry of the bulk-delete witness (the survivor). -/
def c8entryB : ScheduleMessage := ⟨"d2", "chan", [], [], "EU", 2, "B", "u", none⟩

/-- Third tracked entry of the bulk-delete witness. -/
def c8entryC : ScheduleMessage := ⟨"d3", "chan", [], [], "NA", 3, "C", "u", none⟩

/-!
## Theorems

Helper lemmas come first, then one theorem per claim (with its witness or
counterexample where required).
-/

/-- Length of `longRun`. -/
theorem longRun_length (n : Nat) (c : Char) : (longRun n c).length = n := by
  simp [longRun]

/-- A single entry whose formatted line alone reaches the 1900 budget
produces exactly one empty page: the lazily created page never receives
the line, the entry is dropped, and `position` moves past the page. -/
theorem getPrunedOutput_single_overflow (e : ScheduleMessage)
    (h : 1900 ≤ (formatLine false e).length) :
    getPrunedOutput [e] false false = [[]] := by
  have hsort : sortByDate [e] = [e] := rfl
  have henum : ([e]).enum = [(0, e)] := rfl
  simp only [getPrunedOutput, hsort, henum, List.foldl_cons, List.foldl_nil, pruneStep]
  norm_num
  rw [if_pos h]

/-- Length of `String.intercalate.go`: the accumulator plus every element
plus one separator per element. -/
theorem intercalate_go_length (sep : String) : ∀ (l : List String) (acc : String),
    (String.intercalate.go acc sep l).length =
      acc.length + (l.map (fun s => s.length)).sum + sep.length * l.length
  | [], acc => by simp [String.intercalate.go]
  | a :: as, acc => by
    simp [String.intercalate.go, intercalate_go_length sep as (acc ++ sep ++ a)]
    ring

/-- Rendered length of a nonempty page: the lines' lengths plus four
characters of separator between consecutive lines. -/
theorem pageContent_length (a : String) (as : List String) :
    (pageContent (a :: as)).length =
      a.length + (as.map (fun s => s.length)).sum + 4 * as.length := by
  have h4 : ("\r\n\r\n" : String).length = 4 := rfl
  simp [pageContent, String.intercalate, intercalate_go_length, h4]

/-- C1: the claim says concatenating all pages reproduces the input sorted
ascending by date — no entry dropped — and that in the two-fit-one-not
scenario the overflowing third entry starts the second page.  The code
instead drops the entry whose line first reaches the 1900 budget: with
three 949-character lines (two fit, three do not, the scenario scaled to
the hard-coded budget) the result is one single page holding entries 1 and
2, and entry 3 appears on no page, so the concatenation of pages is not
the sorted input. -/
theorem pagination_drops_boundary_entry :
    (formatLine false entryA).length = 949 ∧
    (formatLine false entryC).length = 949 ∧
    getPrunedOutput [entryA, entryB, entryC] false false =
      [[formatLine false entryA, formatLine false entryB]] ∧
    (getPrunedOutput [entryA, entryB, entryC] false false).flatten ≠
      (sortByDate [entryA, entryB, entryC]).map (formatLine false) := by
  decide

/-- C2: the claim says an entry whose single formatted line alone exceeds
the budget is placed unmodified as its own page, never omitted.  On the
code, a single entry with a 1900-character line yields `[[]]`: one empty
page and the entry omitted from every page. -/
theorem oversized_entry_never_gets_own_page :
    1900 ≤ (formatLine false entryOversized).length ∧
    getPrunedOutput [entryOversized] false false = [[]] := by
  have hlen : (formatLine false entryOversized).length = 1900 := by
    simp [formatLine, entryOversized, longRun_length]
    decide
  exact ⟨by omega, getPrunedOutput_single_overflow entryOversized (by omega)⟩

/-- C3: the claim says every page's rendered length (lines joined with the
blank-line separator) is at most the budget and no page is empty unless
the input is.  On the code, a single entry with a 2000-character line
yields one empty page from a nonempty input, and 137 minimal entries (each
line 10 characters) land on one page whose rendered content is 1914
characters, over the 1900 budget, because the `\r\n\r\n` separators are
never counted. -/
theorem page_budget_and_nonemptiness_violated :
    getPrunedOutput [entryHuge] false false = [[]] ∧
    (getPrunedOutput (List.replicate 137 tinyEntry) false false).map
        (fun page => (pageContent page).length) = [1914] := by
  constructor
  · have hlen : (formatLine false entryHuge).length = 2000 := by
      simp [formatLine, entryHuge, longRun_length]
      decide
    exact getPrunedOutput_single_overflow entryHuge (by omega)
  · have hout : getPrunedOutput (List.replicate 137 tinyEntry) false false =
        [List.replicate 137 "<t:0:F>   "] := by decide
    have hrep : (List.replicate 137 "<t:0:F>   " : List String) =
        "<t:0:F>   " :: List.replicate 136 "<t:0:F>   " := rfl
    have h10 : ("<t:0:F>   " : String).length = 10 := rfl
    rw [hout, List.map_cons, List.map_nil, hrep, pageContent_length]
    rw [List.map_replicate, h10, List.sum_replicate]
    norm_num

/-- C6: the claim says `reactorIds` and `reactorNames` always describe the
same set of opted-in users after every operation.  The reaction-add
handler appends the user to `reactorIds` only: starting from a tracked
entry with no reactors, after a sign-up reaction add by user `u` the entry
has `reactorIds = [u]` but `reactorNames = []`. -/
theorem reaction_add_desyncs_reactorNames :
    (reactionAdd [c6entry] "m2" MCMysticCoinEmoji "u" c6entry).map
        (fun e => e.reactorIds) = [["u"]] ∧
    (reactionAdd [c6entry] "m2" MCMysticCoinEmoji "u" c6entry).map
        (fun e => e.reactorNames) = [[]] := by
  decide

/-- C9: a publish cycle is not applied uniformly to the destinations: with
the schedule holding one EU entry and destinations `destNA` (regions
`["NA"]`, one old bot message) then `destEU` (regions `["EU"]`), the cycle
deletes `destNA`'s old message, sends it a placeholder, and returns —
`destEU` receives no write at all, and `writtenSchedule` keeps its stale
value (`completed = false`), exactly the claimed non-uniform behaviour. -/
theorem empty_region_aborts_cycle :
    runCycle [⟨"destNA", ["NA"]⟩, ⟨"destEU", ["EU"]⟩]
      (fun cid => if cid = "destNA" then some ⟨["botNA"]⟩
        else if cid = "destEU" then some ⟨["botEU"]⟩ else none)
      0 [euEntry] ["stale"] =
      { writes := [.deleteMsg "destNA" "botNA",
                   .send "destNA" (some "Loading History...") false],
        writtenSchedule := ["stale"], completed := false } := by
  decide

/-- C10: the placeholder index `Math.round(Math.random() * length)` can
equal the array length: for `r = 49/50` the computed index is 23, the
length of `NO_SELLS_COMMENTS`, so the lookup is out of bounds (`get? 23 =
none`) — and a cycle hitting the empty-region branch with that index sends
`undefined` content (`none`). -/
theorem no_sells_index_out_of_bounds :
    (∃ r : ℚ, 0 ≤ r ∧ r < 1 ∧
      noSellsIndex r = (NO_SELLS_COMMENTS.length : ℤ) ∧
      NO_SELLS_COMMENTS.get? (noSellsIndex r).toNat = none) ∧
    runCycle [⟨"dest", ["NA"]⟩] (fun _ => some ⟨[]⟩) 23 [euEntry] [] =
      { writes := [.send "dest" none false],
        writtenSchedule := [], completed := false } := by
  constructor
  · refine ⟨49 / 50, by norm_num, by norm_num, ?_, ?_⟩
    · have h : NO_SELLS_COMMENTS.length = 23 := rfl
      rw [noSellsIndex, h]
      norm_num
    · have h : noSellsIndex (49 / 50) = 23 := by
        have hl : NO_SELLS_COMMENTS.length = 23 := rfl
        rw [noSellsIndex, hl]
        norm_num
      rw [h]
      decide
  · decide

/-- Two equal-length string lists zip to no differing pair exactly when
they are equal. -/
theorem zip_any_ne_false_iff : ∀ (l₁ l₂ : List String), l₁.length = l₂.length →
    (((l₁.zip l₂).any (fun p => p.1 != p.2)) = false ↔ l₁ = l₂)
  | [], [], _ => by simp
  | [], _ :: _, h => by simp at h
  | _ :: _, [], h => by simp at h
  | a :: t₁, b :: t₂, h => by
    have ht : t₁.length = t₂.length := by simpa using h
    have ih := zip_any_ne_false_iff t₁ t₂ ht
    rw [List.zip_cons_cons, List.any_cons, Bool.or_eq_false_iff, bne_eq_false_iff_eq, ih]
    constructor
    · rintro ⟨h1, rfl⟩
      rw [show a = b from h1]
    · rintro h2
      injection h2 with ha ht2
      exact ⟨ha, ht2⟩

/-- The fingerprint has one item per entry. -/
theorem fingerprintOf_length (schedule : List ScheduleMessage) :
    (fingerprintOf schedule).length = schedule.length := by
  simp [fingerprintOf]

/-- The skip check succeeds exactly when the recorded `writtenSchedule` is
the current snapshot's fingerprint. -/
theorem scheduleUnchanged_iff (schedule : List ScheduleMessage) (written : List String) :
    scheduleUnchanged schedule written = true ↔ written = fingerprintOf schedule := by
  rw [scheduleUnchanged, Bool.and_eq_true, beq_iff_eq, Bool.not_eq_true']
  constructor
  · rintro ⟨hlen, hany⟩
    have hl : (fingerprintOf schedule).length = written.length := by
      rw [fingerprintOf_length, hlen]
    exact ((zip_any_ne_false_iff _ _ hl).mp hany).symm
  · rintro rfl
    refine ⟨fingerprintOf_length schedule, ?_⟩
    exact (zip_any_ne_false_iff _ _ rfl).mpr rfl

/-- C4: after a publish cycle that completed (it either skipped, or ran
the whole destination loop and recorded the snapshot fingerprint as
`writtenSchedule`), a second cycle over the unchanged schedule issues zero
destination writes and leaves the recorded fingerprint as it was: the
fingerprint comparison (`id + date + text` per entry) makes it a no-op. -/
theorem fingerprint_skip (infos : List ChannelInfo) (channels : String → Option ChannelState)
    (r₁ r₂ : Nat) (schedule : List ScheduleMessage) (written : List String)
    (h : (runCycle infos channels r₁ schedule written).completed = true) :
    (runCycle infos channels r₂ schedule
        (runCycle infos channels r₁ schedule written).writtenSchedule).writes = [] ∧
    (runCycle infos channels r₂ schedule
        (runCycle infos channels r₁ schedule written).writtenSchedule).writtenSchedule =
      (runCycle infos channels r₁ schedule written).writtenSchedule := by
  have hw : (runCycle infos channels r₁ schedule written).writtenSchedule =
      fingerprintOf schedule := by
    by_cases hc : scheduleUnchanged schedule written = true
    · rw [runCycle, if_pos hc]
      exact (scheduleUnchanged_iff schedule written).mp hc
    · rw [runCycle, if_neg hc] at h ⊢
      by_cases hr : (runChannels channels schedule r₁ infos []).2 = true
      · simp only [hr, if_pos] at h
        simp at h
      · simp only [Bool.not_eq_true] at hr
        simp only [hr] at h ⊢
        simp
  have hskip : scheduleUnchanged schedule (fingerprintOf schedule) = true :=
    (scheduleUnchanged_iff schedule (fingerprintOf schedule)).mpr rfl
  rw [hw, runCycle, if_pos hskip]
  exact ⟨rfl, rfl⟩

/-- Witness for C4: a concrete completing first cycle (one EU destination,
one EU entry, stale fingerprint), after which the second cycle writes
nothing. -/
theorem fingerprint_skip_witness :
    (runCycle [⟨"c1", ["EU"]⟩] (fun _ => some ⟨[]⟩) 0 [euEntry] []).completed = true ∧
    (runCycle [⟨"c1", ["EU"]⟩] (fun _ => some ⟨[]⟩) 1 [euEntry]
        (runCycle [⟨"c1", ["EU"]⟩] (fun _ => some ⟨[]⟩) 0 [euEntry] []).writtenSchedule).writes
      = [] :=
  ⟨by decide,
    (fingerprint_skip [⟨"c1", ["EU"]⟩] (fun _ => some ⟨[]⟩) 0 1 [euEntry] [] (by decide)).1⟩

/-- The first tracked entry with a given id resolves a `find?` over ids. -/
theorem find?_sched_cons_of_pos (e : ScheduleMessage) (s : List ScheduleMessage)
    (msgId : String) (he : e.id = msgId) :
    List.find? (fun x => x.id == msgId) (e :: s) = some e :=
  List.find?_cons_of_pos (p := fun x : ScheduleMessage => x.id == msgId) s (by simpa using he)

/-- A head entry with another id is skipped by `find?` over ids. -/
theorem find?_sched_cons_of_neg (e : ScheduleMessage) (s : List ScheduleMessage)
    (msgId : String) (he : ¬ e.id = msgId) :
    List.find? (fun x => x.id == msgId) (e :: s) =
      List.find? (fun x => x.id == msgId) s :=
  List.find?_cons_of_neg (p := fun x : ScheduleMessage => x.id == msgId) s (by simpa using he)

/-- The reaction-add handler ignores a head entry with another id. -/
theorem reactionAdd_cons_of_ne (e : ScheduleMessage) (s : List ScheduleMessage)
    (msgId emojiId userId : String) (m : ScheduleMessage)
    (he : ¬ e.id = msgId) (hm : m.id = msgId) :
    reactionAdd (e :: s) msgId emojiId userId m = e :: reactionAdd s msgId emojiId userId m := by
  rw [reactionAdd, reactionAdd, find?_sched_cons_of_neg e s msgId he]
  by_cases hc : (s.find? (fun x => x.id == msgId)).isSome = true ∧ emojiId = MCMysticCoinEmoji
  · rw [if_pos hc, if_pos hc]
    rw [addReactorToFirst, if_neg he]
    rw [updateSchedule, if_neg (by rw [hm]; exact he)]
  · rw [if_neg hc, if_neg hc]

/-- The reaction-remove handler ignores a head entry with another id. -/
theorem reactionRemove_cons_of_ne (e : ScheduleMessage) (s : List ScheduleMessage)
    (msgId emojiId userId : String) (m : ScheduleMessage)
    (he : ¬ e.id = msgId) (hm : m.id = msgId) :
    reactionRemove (e :: s) msgId emojiId userId m =
      e :: reactionRemove s msgId emojiId userId m := by
  rw [reactionRemove, reactionRemove, find?_sched_cons_of_neg e s msgId he]
  cases hf : s.find? (fun x => x.id == msgId) with
  | none => rfl
  | some item =>
    rw [Option.elim_some, Option.elim_some]
    by_cases hem : emojiId = MCMysticCoinEmoji
    · rw [if_pos hem, if_pos hem]
      by_cases hu : userId ∈ item.reactorIds
      · rw [if_pos hu, if_pos hu]
        rw [removeReactorFromFirst, if_neg he]
        rw [updateSchedule, if_neg (by rw [hm]; exact he)]
      · rw [if_neg hu, if_neg hu]
    · rw [if_neg hem, if_neg hem]

/-- C5 counterexample: on an entry whose `reactorIds` is `[u, v]`, a
sign-up reaction add by `u` followed by a remove by `u` yields `[v, u]`:
the add appends a second `u` at the end and the remove splices out the
first occurrence, so the list is not restored to its pre-add state. -/
theorem reaction_add_remove_moves_existing_user :
    (reactionRemove (reactionAdd [c5entry] "m1" MCMysticCoinEmoji "u" c5entry)
        "m1" MCMysticCoinEmoji "u" c5entry).map (fun e => e.reactorIds) = [["v", "u"]] ∧
    [c5entry].map (fun e => e.reactorIds) = [["u", "v"]] ∧
    (["v", "u"] : List String) ≠ ["u", "v"] := by
  decide

/-- C5 as amended: for a user not already in the entry's `reactorIds`,
processing a sign-up-reaction add and then a remove by that user leaves
every entry's `reactorIds` exactly as before the add (`m₁`, `m₂` are the
parses of the re-fetched message the handlers pass to `updateSchedule`,
which rewrites only date and text). -/
theorem reaction_add_remove_roundtrip (s : List ScheduleMessage) (msgId userId : String)
    (m₁ m₂ : ScheduleMessage) (h₁ : m₁.id = msgId) (h₂ : m₂.id = msgId)
    (hpre : ∀ e ∈ s, e.id = msgId → userId ∉ e.reactorIds) :
    (reactionRemove (reactionAdd s msgId MCMysticCoinEmoji userId m₁)
        msgId MCMysticCoinEmoji userId m₂).map (fun e => e.reactorIds) =
      s.map (fun e => e.reactorIds) := by
  induction s with
  | nil => rfl
  | cons e rest ih =>
    by_cases he : e.id = msgId
    · have hu : userId ∉ e.reactorIds := hpre e (List.mem_cons_self e rest) he
      rw [reactionAdd, find?_sched_cons_of_pos e rest msgId he]
      rw [if_pos ⟨rfl, rfl⟩]
      rw [addReactorToFirst, if_pos he]
      rw [updateSchedule, if_pos (by rw [h₁]; exact he)]
      rw [reactionRemove,
        find?_sched_cons_of_pos _ rest msgId (by simpa using he)]
      rw [Option.elim_some]
      rw [if_pos rfl]
      rw [if_pos (by simp : userId ∈ e.reactorIds ++ [userId])]
      rw [removeReactorFromFirst, if_pos (by simpa using he)]
      rw [updateSchedule, if_pos (by rw [h₂]; simpa using he)]
      have herase : (e.reactorIds ++ [userId]).erase userId = e.reactorIds := by
        rw [List.erase_append_right _ hu, List.erase_cons_head, List.append_nil]
      simp [herase]
    · rw [reactionAdd_cons_of_ne e rest msgId MCMysticCoinEmoji userId m₁ he h₁]
      rw [reactionRemove_cons_of_ne e _ msgId MCMysticCoinEmoji userId m₂ he h₂]
      rw [List.map_cons, List.map_cons]
      congr 1
      exact ih (fun x hx hid => hpre x (List.mem_cons_of_mem e hx) hid)

/-- Witness for the amended C5: user `u` is not signed up on the concrete
entry, and add-then-remove restores its reactor list. -/
theorem reaction_add_remove_roundtrip_witness :
    (∀ e ∈ [c5entryW], e.id = "m1" → "u" ∉ e.reactorIds) ∧
    (reactionRemove (reactionAdd [c5entryW] "m1" MCMysticCoinEmoji "u" c5entryW)
        "m1" MCMysticCoinEmoji "u" c5entryW).map (fun e => e.reactorIds) =
      [c5entryW].map (fun e => e.reactorIds) :=
  ⟨by decide,
    reaction_add_remove_roundtrip [c5entryW] "m1" "u" c5entryW c5entryW rfl rfl (by decide)⟩

/-- C7: a content update of a tracked message rewrites only `date` and
`text` of the (first) entry with that id: its other fields — in
particular `reactorIds` and `reactorNames` — and every other entry are
exactly preserved. -/
theorem update_changes_only_date_text (s : List ScheduleMessage) (m : ScheduleMessage)
    (h : ∃ e ∈ s, e.id = m.id) :
    List.Forall₂ (fun old new =>
      new.id = old.id ∧ new.channelId = old.channelId ∧
      new.reactorIds = old.reactorIds ∧ new.reactorNames = old.reactorNames ∧
      new.region = old.region ∧ new.url = old.url ∧
      new.calendarEvent = old.calendarEvent ∧
      (old.id = m.id ∨ new = old))
      s (updateSchedule s m) := by
  induction s with
  | nil => simp at h
  | cons e rest ih =>
    by_cases he : e.id = m.id
    · rw [updateSchedule, if_pos he]
      refine List.Forall₂.cons ⟨rfl, rfl, rfl, rfl, rfl, rfl, rfl, Or.inl he⟩ ?_
      exact List.forall₂_same.mpr (fun a _ => ⟨rfl, rfl, rfl, rfl, rfl, rfl, rfl, Or.inr rfl⟩)
    · rw [updateSchedule, if_neg he]
      refine List.Forall₂.cons ⟨rfl, rfl, rfl, rfl, rfl, rfl, rfl, Or.inr rfl⟩ (ih ?_)
      obtain ⟨e₀, he₀, hid⟩ := h
      rcases List.mem_cons.mp he₀ with rfl | hmem
      · exact absurd hid he
      · exact ⟨e₀, hmem, hid⟩

/-- Witness for C7: updating the first of two tracked entries changes only
its date and text. -/
theorem update_changes_only_date_text_witness :
    (∃ e ∈ [c7entryA, c7entryB], e.id = c7update.id) ∧
    List.Forall₂ (fun old new =>
      new.id = old.id ∧ new.channelId = old.channelId ∧
      new.reactorIds = old.reactorIds ∧ new.reactorNames = old.reactorNames ∧
      new.region = old.region ∧ new.url = old.url ∧
      new.calendarEvent = old.calendarEvent ∧
      (old.id = c7update.id ∨ new = old))
      [c7entryA, c7entryB] (updateSchedule [c7entryA, c7entryB] c7update) :=
  ⟨by decide, update_changes_only_date_text [c7entryA, c7entryB] c7update (by decide)⟩

/-- Deleting an id that no entry carries is a no-op. -/
theorem deleteMessage_of_not_mem (s : List ScheduleMessage) (mid : String)
    (h : mid ∉ s.map (fun e => e.id)) : deleteMessage s mid = s := by
  induction s with
  | nil => rfl
  | cons e rest ih =>
    rw [List.map_cons, List.mem_cons, not_or] at h
    rw [deleteMessage, if_neg (fun hh => h.1 hh.symm)]
    rw [ih h.2]

/-- Under unique ids, the single-delete mutation is a filter. -/
theorem deleteMessage_eq_filter (s : List ScheduleMessage) (mid : String)
    (hnd : (s.map (fun e => e.id)).Nodup) :
    deleteMessage s mid = s.filter (fun e => decide (e.id ≠ mid)) := by
  induction s with
  | nil => rfl
  | cons e rest ih =>
    rw [List.map_cons, List.nodup_cons] at hnd
    by_cases he : e.id = mid
    · rw [deleteMessage, if_pos he, List.filter_cons_of_neg (by simpa using he)]
      rw [List.filter_eq_self.mpr]
      intro a ha
      have : a.id ∈ rest.map (fun e => e.id) := List.mem_map_of_mem _ ha
      have hne : a.id ≠ mid := fun hh => hnd.1 (by rw [he, ← hh]; exact this)
      simpa using hne
    · rw [deleteMessage, if_neg he, List.filter_cons_of_pos (by simpa using he)]
      rw [ih hnd.2]

/-- Under unique ids, a bulk delete filters out exactly the given ids. -/
theorem deleteMessagesBulk_eq_filter : ∀ (ids : List String) (s : List ScheduleMessage),
    (s.map (fun e => e.id)).Nodup →
    deleteMessagesBulk s ids = s.filter (fun e => decide (e.id ∉ ids))
  | [], s, _ => by
    rw [deleteMessagesBulk, List.foldl_nil, List.filter_eq_self.mpr]
    intro a _
    simp
  | mid :: ids, s, hnd => by
    rw [deleteMessagesBulk, List.foldl_cons]
    have h1 : deleteMessage s mid = s.filter (fun e => decide (e.id ≠ mid)) :=
      deleteMessage_eq_filter s mid hnd
    have hnd2 : ((deleteMessage s mid).map (fun e => e.id)).Nodup := by
      rw [h1]
      exact ((List.filter_sublist s).map (fun e => e.id)).nodup hnd
    have h2 := deleteMessagesBulk_eq_filter ids (deleteMessage s mid) hnd2
    rw [deleteMessagesBulk] at h2
    rw [h2, h1, List.filter_filter]
    apply List.filter_congr
    intro a _
    simp [List.mem_cons, not_or]
    rw [Bool.and_comm]

/-- C8: over a store with unique ids, a bulk delete removes exactly the
entries whose ids are listed (a filter), a removed id is afterwards
absent from lookup, a single delete equals a bulk delete of one id, and
deleting an untracked id is a no-op. -/
theorem delete_removes_exactly_tracked_ids (s : List ScheduleMessage) (ids : List String)
    (rid uid : String) (hnd : (s.map (fun e => e.id)).Nodup) (hrid : rid ∈ ids)
    (huid : uid ∉ s.map (fun e => e.id)) :
    deleteMessagesBulk s ids = s.filter (fun e => decide (e.id ∉ ids)) ∧
    (deleteMessagesBulk s ids).find? (fun e => e.id == rid) = none ∧
    deleteMessage s rid = deleteMessagesBulk s [rid] ∧
    deleteMessage s uid = s := by
  refine ⟨deleteMessagesBulk_eq_filter ids s hnd, ?_, rfl, deleteMessage_of_not_mem s uid huid⟩
  rw [deleteMessagesBulk_eq_filter ids s hnd]
  rw [List.find?_eq_none]
  intro x hx
  have hxmem := List.of_mem_filter hx
  have : x.id ∉ ids := by simpa using hxmem
  have hne : x.id ≠ rid := fun hh => this (hh ▸ hrid)
  simpa using hne

/-- Witness for C8: bulk-deleting ids `d1` and `d3` from three tracked
entries leaves exactly the `d2` entry; `zz` is untracked and its delete is
a no-op. -/
theorem delete_removes_exactly_tracked_ids_witness :
    (([c8entryA, c8entryB, c8entryC].map (fun e => e.id)).Nodup ∧
      "d1" ∈ ["d1", "d3"] ∧
      "zz" ∉ [c8entryA, c8entryB, c8entryC].map (fun e => e.id)) ∧
    (deleteMessagesBulk [c8entryA, c8entryB, c8entryC] ["d1", "d3"] =
        [c8entryA, c8entryB, c8entryC].filter (fun e => decide (e.id ∉ ["d1", "d3"])) ∧
      (deleteMessagesBulk [c8entryA, c8entryB, c8entryC] ["d1", "d3"]).find?
          (fun e => e.id == "d1") = none ∧
      deleteMessage [c8entryA, c8entryB, c8entryC] "d1" =
        deleteMessagesBulk [c8entryA, c8entryB, c8entryC] ["d1"] ∧
      deleteMessage [c8entryA, c8entryB, c8entryC] "zz" = [c8entryA, c8entryB, c8entryC]) :=
  ⟨⟨by decide, by decide, by decide⟩,
    delete_removes_exactly_tracked_ids [c8entryA, c8entryB, c8entryC] ["d1", "d3"] "d1" "zz"
      (by decide) (by decide) (by decide)⟩

end SellSchedule

